import Mathlib

/-
Verification development for the mod-side classifier (src/ModSide.py).

Modelling conventions (shallow embedding):
- A zip archive is a list of entries.  Each entry carries its name, its raw
  bytes (as a list of byte values), and the JSON/TOML document the Python
  json/toml libraries would produce for its text, as an Option (none models
  a read failure or a parse failure, matching safeRead_from_zip /
  safeLoad_from_json / JSONClean returning None).  The JSON and TOML parsers
  are external libraries, not code of this repository, so they are abstracted
  by the per-entry parsed document.
- Python dicts become association lists (insertion ordered, unique keys),
  Python lists become Lean lists, bytes become List Nat.
- The global registry self.mods becomes an association list from the
  composite key to the record; Python dict insertion appends at the end.
-/

/-- JSON-like documents, covering what json.loads and toml.loads return. -/
inductive JVal where
  | null : JVal
  | bool (b : Bool) : JVal
  | num (n : Int) : JVal
  | str (s : String) : JVal
  | arr (elems : List JVal) : JVal
  | obj (fields : List (String × JVal)) : JVal

/-- Python value.get(key, default) returning a string, defaulting when the
key is absent or its value is not a string. -/
def getStrD (o : List (String × JVal)) (k d : String) : String :=
  match o.lookup k with
  | some (JVal.str s) => s
  | _ => d

/-- Python value.get(key) returning an optional string. -/
def getStrOpt (o : List (String × JVal)) (k : String) : Option String :=
  match o.lookup k with
  | some (JVal.str s) => some s
  | _ => none

/-- Python value.get(key) for a list of strings field. -/
def getStrListOpt (o : List (String × JVal)) (k : String) : Option (List String) :=
  match o.lookup k with
  | some (JVal.arr l) =>
      some (l.filterMap (fun v => match v with | JVal.str s => some s | _ => none))
  | _ => none

/-- Field access mod_info.get(key, default) where mod_info is an arbitrary
JSON value; the source would raise AttributeError on a non-dict value, a
path outside the modelled total fragment, so the default is returned. -/
def jGetStrD (v : JVal) (k d : String) : String :=
  match v with
  | JVal.obj o => getStrD o k d
  | _ => d

/-- Python s or default for an optional string; None and the empty string
are falsy. -/
def pyOr (o : Option String) (d : String) : String :=
  match o with
  | none => d
  | some s => if s = "" then d else s

/-- Python s or default for a string; the empty string is falsy. -/
def pyOrS (s d : String) : String :=
  if s = "" then d else s

/-- The ModInfo dataclass of the source.  The fields follow the dataclass
field order; the debug diagnostic mapping is kept as an optional raw
document. -/
structure ModInfo where
  modid : String
  name : String
  version : String
  side : Option String
  loader : Option String
  reasons : Option (List String)
  debug : Option JVal
  source_files : Option (List String)

/-- The registry self.mods, a dict from composite key to ModInfo. -/
abbrev Registry : Type := List (String × ModInfo)

/-- ModInfor._make_mod_key: composite key modid_loader_version, missing
loader/version filled with unknown (Python or, so empty strings too). -/
def make_mod_key (modid : String) (loader version : Option String) : String :=
  modid ++ "_" ++ pyOr loader "unknown" ++ "_" ++ pyOr version "unknown"

/-- The guarded insertion step shared by every handler and by snapshot
loading: if key not in self.mods then self.mods[key] = record. -/
def insertNew (mods : Registry) (key : String) (r : ModInfo) : Registry :=
  if (List.lookup key mods).isSome then mods else mods ++ [(key, r)]

/-- Apply an optional candidate (key, record) to the registry; none models
the handler returning without inserting. -/
def applyCand (mods : Registry) : Option (String × ModInfo) → Registry
  | none => mods
  | some kr => insertNew mods kr.1 kr.2

/-- One archive entry: name, raw bytes, and the parsed document of its text
(none when reading or parsing would fail). -/
structure Entry where
  name : String
  bytes : List Nat
  json : Option JVal

/-- Membership test name in z.namelist(). -/
def findEntry (z : List Entry) (n : String) : Option Entry :=
  z.find? (fun e => e.name == n)

/-- Boolean form of name in z.namelist(). -/
def hasEntry (z : List Entry) (n : String) : Bool :=
  (findEntry z n).isSome

/-- Prefix test on character lists (structural, kernel-reducible). -/
def listPre : List Char → List Char → Bool
  | [], _ => true
  | _ :: _, [] => false
  | a :: as, b :: bs => a == b && listPre as bs

/-- Python s.startswith(pre). -/
def strStartsWith (s pre : String) : Bool :=
  listPre pre.toList s.toList

/-- Python s.endswith(suf). -/
def strEndsWith (s suf : String) : Bool :=
  listPre suf.toList.reverse s.toList.reverse

/-- os.path.basename for zip entry names (separator /): the part after the
last slash. -/
def basename (p : String) : String :=
  String.mk (p.toList.foldl (fun acc c => if c == '/' then [] else acc ++ [c]) [])

/-- Python str.lower, character-wise (ASCII, as used by the source on ASCII
entry names and environment values). -/
def lowerStr (s : String) : String :=
  String.mk (s.toList.map Char.toLower)

/-- bytes.decode(errors=ignore), restricted to the ASCII range. -/
def decodeAscii (l : List Nat) : String :=
  String.mk (l.filterMap (fun n => if n < 128 then some (Char.ofNat n) else none))

/-- str.encode for the ASCII marker literals. -/
def asciiOf (s : String) : List Nat :=
  s.toList.map (fun c => c.toNat)

/-- The warning string synthesized by _decide_side in the server_only
conflict case. -/
def warnStr : String :=
  "WARNING: metadata says server_only but client markers found (possible mispackaged mod)"

/-- Origin tag for metadata reasons. -/
def tagMeta (loader r : String) : String := "[meta/" ++ loader ++ "] " ++ r

/-- Origin tag for mixin scanner reasons. -/
def tagMixin (r : String) : String := "[mixin] " ++ r

/-- Origin tag for class scanner reasons. -/
def tagClassScan (r : String) : String := "[class-scan] " ++ r

/-- ModInfor._decide_side: merge the metadata side guess with the two
scanner results into the final side and the ordered reason list. -/
def decide_side (loader meta_side : String) (meta_reasons : List String)
    (mixin_client_hit : Bool) (mixin_reasons : List String)
    (class_marker_hit : Bool) (class_reasons : List String) : String × List String :=
  let reasons := meta_reasons.map (tagMeta loader)
  if meta_side = "client_only" then
    ("client_only", reasons)
  else if meta_side = "server_only" then
    if class_marker_hit || mixin_client_hit then
      ("risky", reasons ++ mixin_reasons.map tagMixin
        ++ class_reasons.map tagClassScan ++ [warnStr])
    else
      ("server_only", reasons)
  else if class_marker_hit then
    ("risky", reasons ++ class_reasons.map tagClassScan)
  else if mixin_client_hit then
    ("both", reasons ++ mixin_reasons.map tagMixin)
  else if meta_side = "both" then
    ("both", reasons)
  else
    ("unknown", reasons)

/-- isinstance(env, str) and env.lower() == s. -/
def envStrIs (v : JVal) (s : String) : Bool :=
  match v with
  | JVal.str t => lowerStr t == s
  | _ => false

/-- sorted for lists of strings: insertion of one element. -/
def sortInsert (x : String) : List String → List String
  | [] => [x]
  | y :: ys => if decide (x ≤ y) then x :: y :: ys else y :: sortInsert x ys

/-- sorted for lists of strings (ascending insertion sort). -/
def sortAsc (l : List String) : List String :=
  l.foldr sortInsert []

/-- ModInfor._extract_fabric_side_from_metadata: first conclusion from the
fabric.mod.json environment and entrypoints fields.  Returns the side
guess, the reasons, and the debug mapping. -/
def extract_fabric_side_from_metadata (fabric_json : List (String × JVal)) :
    String × List String × JVal :=
  let env := (fabric_json.lookup "environment").getD (JVal.str "*")
  let epKeys : List String :=
    match fabric_json.lookup "entrypoints" with
    | some (JVal.obj fields) => fields.map (fun kv => kv.1)
    | _ => []
  let debug := JVal.obj [("environment", env),
    ("entrypoints_keys", JVal.arr ((sortAsc epKeys).map JVal.str))]
  if envStrIs env "client" then
    ("client_only", ["fabric.mod.json: environment=client"], debug)
  else if envStrIs env "server" then
    ("server_only", ["fabric.mod.json: environment=server"], debug)
  else
    let has_main := epKeys.contains "main"
    let has_server := epKeys.contains "server"
    let has_client := epKeys.contains "client"
    if (has_main || has_server) && !has_client then
      ("both", ["fabric.mod.json: has entrypoints main/server (no client-only entrypoint)"], debug)
    else if has_client && !(has_main || has_server) then
      ("client_only", ["fabric.mod.json: only client entrypoint present"], debug)
    else
      ("unknown", ["fabric.mod.json: no decisive env/entrypoints"], debug)

/-- Reason string recorded by the mixin scanner for a hit at entry p. -/
def mixinReason (p : String) : String :=
  "mixin config \x27" ++ p ++ "\x27 contains non-empty \x27client\x27 section"

/-- Loop of _scan_mixins_for_client_sections over the entry list, carrying
the hit flag and the collected reasons (the source does not break on a
hit). -/
def mixinLoop : List Entry → Bool → List String → Bool × List String
  | [], hit, rs => (hit, rs)
  | e :: rest, hit, rs =>
    if !(strEndsWith (lowerStr e.name) ".json") then mixinLoop rest hit rs
    else if !(strStartsWith (lowerStr (basename e.name)) "mixins") then mixinLoop rest hit rs
    else
      match e.json with
      | some (JVal.obj o) =>
        match o.lookup "client" with
        | some (JVal.arr (_ :: _)) => mixinLoop rest true (rs ++ [mixinReason e.name])
        | _ => mixinLoop rest hit rs
      | _ => mixinLoop rest hit rs

/-- ModInfor._scan_mixins_for_client_sections: scan mixins*.json entries
for a non-empty client section. -/
def scan_mixins_for_client_sections (z : List Entry) : Bool × List String :=
  mixinLoop z false []

/-- The fixed client-API byte signatures of the class scanner. -/
def markers : List (List Nat) :=
  [asciiOf "net/minecraft/client/",
   asciiOf "net/minecraft/client/MinecraftClient",
   asciiOf "com/mojang/blaze3d/",
   asciiOf "org/lwjgl/",
   asciiOf "net/fabricmc/api/ClientModInitializer"]

/-- The needle occurs at the very start of hay (bytes). -/
def seqAt : List Nat → List Nat → Bool
  | [], _ => true
  | _ :: _, [] => false
  | a :: as, b :: bs => a == b && seqAt as bs

/-- Python needle in hay for byte strings (contiguous subsequence). -/
def hasSeq (needle : List Nat) : List Nat → Bool
  | [] => needle.isEmpty
  | b :: bs => seqAt needle (b :: bs) || hasSeq needle bs

/-- Reason string recorded by the class scanner for marker m. -/
def classReason (m : List Nat) : String :=
  "class bytes contain marker: " ++ decodeAscii m

/-- Loop of _scan_class_bytes_for_client_markers: iterate entries, count
class files, stop once the count exceeds the cap, read a bounded number
of leading bytes, and record the first matching marker of an entry. -/
def classLoop (maxC maxB : Nat) : List Entry → Nat → List String → List String
  | [], _, hs => hs
  | e :: rest, scanned, hs =>
    if strEndsWith e.name ".class" then
      if maxC < scanned + 1 then hs
      else
        let data := e.bytes.take maxB
        match markers.find? (fun m => hasSeq m data) with
        | some m => classLoop maxC maxB rest (scanned + 1) (hs ++ [classReason m])
        | none => classLoop maxC maxB rest (scanned + 1) hs
    else classLoop maxC maxB rest scanned hs

/-- ModInfor._scan_class_bytes_for_client_markers with explicit caps. -/
def scan_class_bytes_for_client_markers (z : List Entry) (maxC maxB : Nat) :
    Bool × List String :=
  let hs := classLoop maxC maxB z 0 []
  (decide (0 < hs.length), hs)

/-- The class scanner at its default caps (max_classes 300,
max_bytes_per_class 200000), as every handler calls it. -/
def scanClassDefaults (z : List Entry) : Bool × List String :=
  scan_class_bytes_for_client_markers z 300 200000

/-- The bounded view of an archive the class scanner can depend on: the
first maxC class entries, each truncated to its first maxB bytes. -/
def classView (maxC maxB : Nat) (z : List Entry) : List (String × List Nat) :=
  ((z.filter (fun e => strEndsWith e.name ".class")).take maxC).map
    (fun e => (e.name, e.bytes.take maxB))

/-- The class scanner loop restated over the bounded view. -/
def procView : List (String × List Nat) → List String → List String
  | [], hs => hs
  | d :: rest, hs =>
    match markers.find? (fun m => hasSeq m d.2) with
    | some m => procView rest (hs ++ [classReason m])
    | none => procView rest hs

/-- ModInfor.FabricModHandler: metadata extraction producing the candidate
(key, record) to insert, or none when the handler returns without
inserting (missing entry, unreadable text, non-dict document, empty id). -/
def fabricCand (path : String) (z : List Entry) : Option (String × ModInfo) :=
  match findEntry z "fabric.mod.json" with
  | none => none
  | some e =>
    match e.json with
    | some (JVal.obj data) =>
      let ms := extract_fabric_side_from_metadata data
      let mx := scan_mixins_for_client_sections z
      let cs := scanClassDefaults z
      let sr := decide_side "fabric" ms.1 ms.2.1 mx.1 mx.2 cs.1 cs.2
      let modid := getStrD data "id" ""
      if modid = "" then none
      else
        let version := pyOrS (getStrD data "version" "") "unknown"
        some (make_mod_key modid (some "fabric") (some version),
          ModInfo.mk modid (getStrD data "name" "") version (some sr.1)
            (some "fabric") (some sr.2) (some ms.2.2) (some [path]))
    | _ => none

/-- ModInfor.RiftModHandler candidate: riftmod.json has no standard sided
metadata, so the meta side guess is unknown with a fixed reason. -/
def riftCand (path : String) (z : List Entry) : Option (String × ModInfo) :=
  match findEntry z "riftmod.json" with
  | none => none
  | some e =>
    match e.json with
    | some (JVal.obj data) =>
      let mx := scan_mixins_for_client_sections z
      let cs := scanClassDefaults z
      let sr := decide_side "rift" "unknown" ["riftmod.json: no standard sided metadata"]
        mx.1 mx.2 cs.1 cs.2
      let modid := getStrD data "id" ""
      if modid = "" then none
      else
        let version := pyOrS (getStrD data "version" "") "unknown"
        some (make_mod_key modid (some "rift") (some version),
          ModInfo.mk modid (getStrD data "name" "") version (some sr.1)
            (some "rift") (some sr.2) none (some [path]))
    | _ => none

/-- ModInfor.QuiltModHandler candidate: reads the environment field from
quilt_loader or its metadata sub-object, then merges with the scanners. -/
def quiltCand (path : String) (z : List Entry) : Option (String × ModInfo) :=
  match findEntry z "quilt.mod.json" with
  | none => none
  | some e =>
    match e.json with
    | some (JVal.obj data) =>
      let loader_data :=
        match data.lookup "quilt_loader" with
        | some (JVal.obj l) => l
        | _ => []
      let meta :=
        match loader_data.lookup "metadata" with
        | some (JVal.obj l) => l
        | _ => []
      let env :=
        match loader_data.lookup "environment" with
        | some v => v
        | none => (meta.lookup "environment").getD (JVal.str "*")
      let msr : String × List String :=
        if envStrIs env "client" then
          ("client_only", ["quilt.mod.json: environment=client"])
        else if envStrIs env "server" then
          ("server_only", ["quilt.mod.json: environment=server"])
        else
          ("unknown", ["quilt.mod.json: no decisive environment field"])
      let mx := scan_mixins_for_client_sections z
      let cs := scanClassDefaults z
      let sr := decide_side "quilt" msr.1 msr.2 mx.1 mx.2 cs.1 cs.2
      let modid := getStrD loader_data "id" ""
      if modid = "" then none
      else
        let version := pyOrS (getStrD loader_data "version" "") "unknown"
        some (make_mod_key modid (some "quilt") (some version),
          ModInfo.mk modid (getStrD meta "name" "") version (some sr.1)
            (some "quilt") (some sr.2) (some (JVal.obj [("environment", env)])) (some [path]))
    | _ => none

/-- ModInfor.LForgeModHandler candidate: mcmod.info inside a jar; a
top-level list takes element 0, a dict is taken as is, any other shape
yields no record. -/
def lforgeCand (path : String) (z : List Entry) : Option (String × ModInfo) :=
  match findEntry z "mcmod.info" with
  | none => none
  | some e =>
    match e.json with
    | none => none
    | some d =>
      let modInfoOpt : Option JVal :=
        match d with
        | JVal.arr (x :: _) => some x
        | JVal.obj o => some (JVal.obj o)
        | _ => none
      match modInfoOpt with
      | none => none
      | some mi =>
        let mx := scan_mixins_for_client_sections z
        let cs := scanClassDefaults z
        let sr := decide_side "forge_legacy"
          "unknown" ["forge legacy: mcmod.info has no reliable sided metadata"]
          mx.1 mx.2 cs.1 cs.2
        let modid := jGetStrD mi "modid" ""
        if modid = "" then none
        else
          let version := pyOrS (jGetStrD mi "version" "") "unknown"
          some (make_mod_key modid (some "forge_legacy") (some version),
            ModInfo.mk modid (jGetStrD mi "name" "") version (some sr.1)
              (some "forge_legacy") (some sr.2) none (some [path]))

/-- Whitespace for str.strip (the common ASCII whitespace characters). -/
def isWS (c : Char) : Bool :=
  c == ' ' || c == '\t' || c == '\r' || c == '\n'

/-- Python str.strip(). -/
def trimStr (s : String) : String :=
  String.mk (((s.toList.dropWhile isWS).reverse.dropWhile isWS).reverse)

/-- Split a character list at newline characters (file line iteration). -/
def splitLines : List Char → List (List Char)
  | [] => [[]]
  | c :: rest =>
    let r := splitLines rest
    if c == '\n' then [] :: r
    else
      match r with
      | h :: t => (c :: h) :: t
      | [] => [[c]]

/-- The MForge fallback: when the declared version is the build placeholder,
read Implementation-Version from META-INF/MANIFEST.MF, keeping the
placeholder if the manifest or the field is absent. -/
def implVersionLookup (z : List Entry) (fallback : String) : String :=
  match findEntry z "META-INF/MANIFEST.MF" with
  | none => fallback
  | some m =>
    let lines := (splitLines (decodeAscii m.bytes).toList).map
      (fun l => trimStr (String.mk l))
    match lines.find? (fun l => strStartsWith l "Implementation-Version:") with
    | some l => trimStr (String.mk (l.toList.drop ("Implementation-Version:".toList.length)))
    | none => fallback

/-- The build-time version placeholder token of mods.toml. -/
def jarVersionPlaceholder : String := "$\x7bfile.jarVersion\x7d"

/-- ModInfor.MForgeModHandler candidate: META-INF/mods.toml, first element
of the mods array, with the manifest fallback for the placeholder version.
Note the declared version is stored as is (possibly empty); only the key
defaults it to unknown. -/
def mforgeCand (path : String) (z : List Entry) : Option (String × ModInfo) :=
  match findEntry z "META-INF/mods.toml" with
  | none => none
  | some e =>
    match e.json with
    | some (JVal.obj data) =>
      match (data.lookup "mods").getD (JVal.arr []) with
      | JVal.arr (mi :: _) =>
        let version0 := jGetStrD mi "version" ""
        let version :=
          if version0 = jarVersionPlaceholder then implVersionLookup z version0
          else version0
        let mx := scan_mixins_for_client_sections z
        let cs := scanClassDefaults z
        let sr := decide_side "forge"
          "unknown" ["forge mods.toml: no reliable sided metadata; using class scan"]
          mx.1 mx.2 cs.1 cs.2
        let modid := jGetStrD mi "modId" ""
        if modid = "" then none
        else
          some (make_mod_key modid (some "forge") (some version),
            ModInfo.mk modid (jGetStrD mi "displayName" "") version (some sr.1)
              (some "forge") (some sr.2) none (some [path]))
      | _ => none
    | _ => none

/-- ModInfor.NeoForgeModHandler candidate: META-INF/neoforge.mods.toml,
first element of the mods array. -/
def neoforgeCand (path : String) (z : List Entry) : Option (String × ModInfo) :=
  match findEntry z "META-INF/neoforge.mods.toml" with
  | none => none
  | some e =>
    match e.json with
    | some (JVal.obj data) =>
      match (data.lookup "mods").getD (JVal.arr []) with
      | JVal.arr (mi :: _) =>
        let mx := scan_mixins_for_client_sections z
        let cs := scanClassDefaults z
        let sr := decide_side "neoforge"
          "unknown" ["neoforge mods.toml: no reliable sided metadata; using class scan"]
          mx.1 mx.2 cs.1 cs.2
        let modid := jGetStrD mi "modId" ""
        if modid = "" then none
        else
          let version := pyOrS (jGetStrD mi "version" "") "unknown"
          some (make_mod_key modid (some "neoforge") (some version),
            ModInfo.mk modid (jGetStrD mi "displayName" "") version (some sr.1)
              (some "neoforge") (some sr.2) none (some [path]))
      | _ => none
    | _ => none

/-- ModInfor.UniversalHandler candidate (.zip and .litemod archives):
mcmod.info with a top-level list, or a dict with a non-empty modlist list.
The record is inserted with side unknown and a fixed reason; neither
heuristic scanner is consulted by this handler. -/
def universalCand (path : String) (z : List Entry) : Option (String × ModInfo) :=
  match findEntry z "mcmod.info" with
  | none => none
  | some e =>
    match e.json with
    | none => none
    | some d =>
      let modInfoOpt : Option JVal :=
        match d with
        | JVal.arr (x :: _) => some x
        | JVal.obj o =>
          match o.lookup "modlist" with
          | some (JVal.arr (x :: _)) => some x
          | _ => none
        | _ => none
      match modInfoOpt with
      | none => none
      | some mi =>
        let modid := jGetStrD mi "modid" ""
        if modid = "" then none
        else
          let version := pyOrS (jGetStrD mi "version" "") "unknown"
          some (make_mod_key modid (some "universal") (some version),
            ModInfo.mk modid (jGetStrD mi "name" "") version (some "unknown")
              (some "universal")
              (some ["legacy/zip: mcmod.info has no reliable sided metadata"]) none
              (some [path]))

/-- ModInfor.FabricModHandler acting on the registry. -/
def FabricModHandler (mods : Registry) (path : String) (z : List Entry) : Registry :=
  applyCand mods (fabricCand path z)

/-- ModInfor.RiftModHandler acting on the registry. -/
def RiftModHandler (mods : Registry) (path : String) (z : List Entry) : Registry :=
  applyCand mods (riftCand path z)

/-- ModInfor.QuiltModHandler acting on the registry. -/
def QuiltModHandler (mods : Registry) (path : String) (z : List Entry) : Registry :=
  applyCand mods (quiltCand path z)

/-- ModInfor.LForgeModHandler acting on the registry. -/
def LForgeModHandler (mods : Registry) (path : String) (z : List Entry) : Registry :=
  applyCand mods (lforgeCand path z)

/-- ModInfor.MForgeModHandler acting on the registry. -/
def MForgeModHandler (mods : Registry) (path : String) (z : List Entry) : Registry :=
  applyCand mods (mforgeCand path z)

/-- ModInfor.NeoForgeModHandler acting on the registry. -/
def NeoForgeModHandler (mods : Registry) (path : String) (z : List Entry) : Registry :=
  applyCand mods (neoforgeCand path z)

/-- ModInfor.UniversalHandler acting on the registry (after the archive was
opened). -/
def UniversalHandler (mods : Registry) (path : String) (z : List Entry) : Registry :=
  applyCand mods (universalCand path z)

/-- ModInfor.SpecialHandler: runs both scanners and computes a verdict but
never inserts anything into the registry (the source computes side and
reasons and then passes). -/
def SpecialHandler (mods : Registry) (z : List Entry) : Registry :=
  let mx := scan_mixins_for_client_sections z
  let cs := scanClassDefaults z
  let _verdict := decide_side "special"
    "unknown" ["special/unknown mod type: no known metadata"] mx.1 mx.2 cs.1 cs.2
  mods

/-- ModInfor.JarFileHandler after the archive was opened: first-match
dispatch over the trigger entry names, else the catch-all. -/
def JarFileHandler (mods : Registry) (path : String) (z : List Entry) : Registry :=
  if hasEntry z "fabric.mod.json" then FabricModHandler mods path z
  else if hasEntry z "riftmod.json" then RiftModHandler mods path z
  else if hasEntry z "quilt.mod.json" then QuiltModHandler mods path z
  else if hasEntry z "mcmod.info" then LForgeModHandler mods path z
  else if hasEntry z "META-INF/mods.toml" then MForgeModHandler mods path z
  else if hasEntry z "META-INF/neoforge.mods.toml" then NeoForgeModHandler mods path z
  else SpecialHandler mods z

/-- A candidate path resolves to a valid archive or to a file zipfile
cannot open. -/
inductive FileContent where
  | invalid : FileContent
  | archive (z : List Entry) : FileContent

/-- with zipfile.ZipFile(path) as z: raises BadZipFile on an invalid
container; no caller in the walk catches it. -/
def openArchive : FileContent → Except String (List Entry)
  | FileContent.invalid => Except.error "zipfile.BadZipFile: File is not a zip file"
  | FileContent.archive z => Except.ok z

/-- ModInfor.PathHandler over the flattened walk, as a candidate sequence of
(path, content) pairs (directory recursion merely enumerates candidates).
Suffix routing as in the source; an open failure propagates, which aborts
the remaining walk. -/
def PathHandler (mods : Registry) : List (String × FileContent) → Except String Registry
  | [] => Except.ok mods
  | (p, c) :: rest =>
    if strEndsWith p ".litemod" then
      match openArchive c with
      | Except.error e => Except.error e
      | Except.ok z => PathHandler (UniversalHandler mods p z) rest
    else if strEndsWith p ".zip" then
      match openArchive c with
      | Except.error e => Except.error e
      | Except.ok z => PathHandler (UniversalHandler mods p z) rest
    else if strEndsWith p ".jar" then
      match openArchive c with
      | Except.error e => Except.error e
      | Except.ok z => PathHandler (JarFileHandler mods p z) rest
    else PathHandler mods rest

/-- sorted(reverse=True) for the snapshot file list. -/
def sortRev (l : List String) : List String :=
  (sortAsc l).reverse

/-- The ModelInfo_*.json filter of LoadFromJson. -/
def recFiles (files : List String) : List String :=
  files.filter (fun f => strStartsWith f "ModelInfo_" && strEndsWith f ".json")

/-- Rebuild one ModInfo from a loaded snapshot dict (LoadFromJson body). -/
def loadRec (o : List (String × JVal)) : ModInfo :=
  ModInfo.mk (getStrD o "modid" "") (getStrD o "name" "") (getStrD o "version" "")
    (getStrOpt o "side") (getStrOpt o "loader") (getStrListOpt o "reasons")
    (o.lookup "debug") (getStrListOpt o "source_files")

/-- The population loop of LoadFromJson over the mods sequence.  A non-dict
element raises AttributeError in the source, which the surrounding except
turns into a no-data result; the Bool records whether the loop completed. -/
def loadMods : Registry → List JVal → Registry × Bool
  | mods, [] => (mods, true)
  | mods, JVal.obj o :: rest =>
    let r := loadRec o
    let key := make_mod_key r.modid (some (pyOr r.loader "unknown"))
      (some (pyOrS r.version "unknown"))
    loadMods (insertNew mods key r) rest
  | mods, _ :: _ => (mods, false)

/-- ModInfor.LoadFromJson.  Inputs: the registry before the call, whether
the record directory exists, its file names, the requested index, and the
parsed document of the selected file (none when unreadable).  Returns the
registry after the call and the loaded metadata (none means no data
loaded).  The source clears self.mods after the index checks but before
reading the file. -/
def LoadFromJson (prior : Registry) (dirExists : Bool) (dirFiles : List String)
    (index : Nat) (doc : Option JVal) : Registry × Option JVal :=
  if dirExists = false then (prior, none)
  else
    let files := recFiles dirFiles
    if files.isEmpty then (prior, none)
    else
      let sorted := sortRev files
      if sorted.length ≤ index then (prior, none)
      else
        let cleared : Registry := []
        match doc with
        | none => (cleared, none)
        | some d =>
          match d with
          | JVal.obj o =>
            if (o.lookup "metadata").isSome && (o.lookup "mods").isSome then
              let metadata := (o.lookup "metadata").getD (JVal.obj [])
              match (o.lookup "mods").getD (JVal.arr []) with
              | JVal.arr l =>
                match loadMods cleared l with
                | (m, true) => (m, some metadata)
                | (m, false) => (m, none)
              | _ => (cleared, none)
            else (cleared, none)
          | JVal.arr l =>
            match loadMods cleared l with
            | (m, true) => (m, some (JVal.obj [("current_path", JVal.str "")]))
            | (m, false) => (m, none)
          | _ => (cleared, none)

/-- A one-record registry used as a concrete input. -/
def wMods : Registry := [("k", ModInfo.mk "m" "" "1" none none none none none)]

/-- A second record under the same key, used as a concrete input. -/
def wRec2 : ModInfo := ModInfo.mk "m2" "other name" "2" none none none none none

/-- A concrete archive with none of the dispatcher trigger entries. -/
def w10z : List Entry := [Entry.mk "A.class" [] none]

/-- A concrete class entry with marker-free bytes. -/
def w8e : Entry := Entry.mk "A.class" [0] none

/-- A concrete archive holding exactly the class-entry cap. -/
def w8a : List Entry := List.replicate 300 w8e

/-- The same archive with a marker-carrying class entry beyond the entry
cap. -/
def w8b : List Entry := w8a ++ [Entry.mk "Z.class" (asciiOf "org/lwjgl/") none]

/-- A non-empty registry in place before a snapshot load attempt. -/
def w5prior : Registry := [("m_fabric_1", ModInfo.mk "m" "" "1" none none none none none)]

/-- A concrete zip archive with a well-formed mcmod.info and a class entry
whose bytes contain a client marker. -/
def w9z : List Entry :=
  [Entry.mk "mcmod.info" []
    (some (JVal.arr [JVal.obj [("modid", JVal.str "m"), ("name", JVal.str "M"),
      ("version", JVal.str "1")]])),
   Entry.mk "A.class" (asciiOf "net/minecraft/client/") none]

/-- A concrete rift archive. -/
def w9riftZ : List Entry :=
  [Entry.mk "riftmod.json" [] (some (JVal.obj [("id", JVal.str "rm")]))]

/-- A concrete universal (.zip) archive. -/
def w9uniZ : List Entry :=
  [Entry.mk "mcmod.info" [] (some (JVal.arr [JVal.obj [("modid", JVal.str "u")]]))]

/-- The side decided for an archive by the engine itself, from an unknown
meta guess with the given fixed reason and the two scanner results on the
archive; what claim C9 says the final side of a record is for the loaders
without a standardized side field. -/
def engineMergedSide (loader : String) (metaReason : String) (z : List Entry) : String :=
  (decide_side loader "unknown" [metaReason]
    (scan_mixins_for_client_sections z).1 (scan_mixins_for_client_sections z).2
    (scanClassDefaults z).1 (scanClassDefaults z).2).1

/-- The inputs on which LoadFromJson fails only after it has cleared the
registry: an unreadable file, or a parsed document that is neither a list
nor a dict holding both metadata and mods. -/
def loadFailsAfterClear (doc : Option JVal) : Bool :=
  match doc with
  | none => true
  | some (JVal.obj o) => !((o.lookup "metadata").isSome && (o.lookup "mods").isSome)
  | some (JVal.arr _) => false
  | some _ => true

/-- The quilt.mod.json meta-side extraction performed inline by
QuiltModHandler: the environment field is read from quilt_loader, falling
back to its metadata sub-object, and mapped to the side guess with its
reason. -/
def quiltMetaSide (data : List (String × JVal)) : String × List String :=
  let loader_data :=
    match data.lookup "quilt_loader" with
    | some (JVal.obj l) => l
    | _ => []
  let meta :=
    match loader_data.lookup "metadata" with
    | some (JVal.obj l) => l
    | _ => []
  let env :=
    match loader_data.lookup "environment" with
    | some v => v
    | none => (meta.lookup "environment").getD (JVal.str "*")
  if envStrIs env "client" then
    ("client_only", ["quilt.mod.json: environment=client"])
  else if envStrIs env "server" then
    ("server_only", ["quilt.mod.json: environment=server"])
  else
    ("unknown", ["quilt.mod.json: no decisive environment field"])

/-- A concrete fabric archive entry and archive. -/
def wFabE : Entry :=
  Entry.mk "fabric.mod.json" []
    (some (JVal.obj [("id", JVal.str "fm"), ("environment", JVal.str "client")]))

/-- A concrete fabric archive. -/
def wFabZ : List Entry := [wFabE]

/-- A concrete quilt archive entry. -/
def wQuiltE : Entry :=
  Entry.mk "quilt.mod.json" []
    (some (JVal.obj [("quilt_loader", JVal.obj [("id", JVal.str "qm")])]))

/-- A concrete quilt archive. -/
def wQuiltZ : List Entry := [wQuiltE]

/-- A concrete legacy-forge archive. -/
def wLfZ : List Entry :=
  [Entry.mk "mcmod.info" [] (some (JVal.arr [JVal.obj [("modid", JVal.str "lm")]]))]

/-- A concrete forge mods.toml archive. -/
def wMfZ : List Entry :=
  [Entry.mk "META-INF/mods.toml" []
    (some (JVal.obj [("mods", JVal.arr [JVal.obj [("modId", JVal.str "fo")]])]))]

/-- A concrete neoforge archive. -/
def wNfZ : List Entry :=
  [Entry.mk "META-INF/neoforge.mods.toml" []
    (some (JVal.obj [("mods", JVal.arr [JVal.obj [("modId", JVal.str "ne")]])]))]

/-! Helper lemmas about the registry insertion step. -/

theorem lookup_append_left (k : String) (l tl : Registry)
    (h : (List.lookup k l).isSome = true) :
    List.lookup k (l ++ tl) = List.lookup k l := by
  induction l with
  | nil => simp [List.lookup] at h
  | cons hd rest ih =>
    obtain ⟨a, b⟩ := hd
    cases hk : k == a with
    | false =>
      have h2 : (List.lookup k rest).isSome = true := by
        simpa only [List.lookup, hk] using h
      simp only [List.cons_append, List.lookup, hk]
      exact ih h2
    | true => simp only [List.cons_append, List.lookup, hk]

theorem insertNew_present (mods : Registry) (key : String) (r : ModInfo)
    (h : (List.lookup key mods).isSome = true) :
    insertNew mods key r = mods := by
  simp [insertNew, h]

theorem lookup_insertNew (mods : Registry) (key : String) (r : ModInfo) (k : String)
    (h : (List.lookup k mods).isSome = true) :
    List.lookup k (insertNew mods key r) = List.lookup k mods := by
  unfold insertNew
  split
  · rfl
  · exact lookup_append_left k mods [(key, r)] h

theorem lookup_applyCand (mods : Registry) (c : Option (String × ModInfo)) (k : String)
    (h : (List.lookup k mods).isSome = true) :
    List.lookup k (applyCand mods c) = List.lookup k mods := by
  cases c with
  | none => rfl
  | some kr => exact lookup_insertNew mods kr.1 kr.2 k h

theorem loadMods_preserves (l : List JVal) : ∀ (mods : Registry) (k : String),
    (List.lookup k mods).isSome = true →
    List.lookup k (loadMods mods l).1 = List.lookup k mods := by
  induction l with
  | nil => intro mods k h; rfl
  | cons d rest ih =>
    intro mods k h
    cases d with
    | obj o =>
      have h2 : (List.lookup k (insertNew mods
          (make_mod_key (loadRec o).modid (some (pyOr (loadRec o).loader "unknown"))
            (some (pyOrS (loadRec o).version "unknown"))) (loadRec o))).isSome = true := by
        rw [lookup_insertNew _ _ _ _ h]; exact h
      calc List.lookup k (loadMods mods (JVal.obj o :: rest)).1
          = List.lookup k (insertNew mods _ (loadRec o)) := ih _ k h2
        _ = List.lookup k mods := lookup_insertNew _ _ _ _ h
    | null => rfl
    | bool b => rfl
    | num n => rfl
    | str s => rfl
    | arr a => rfl

/-- Claim C1: whenever the meta-side guess handed to the side decision
engine is client_only the final side is client_only, for every value of the
mixin-hit flag and the class-marker-hit flag; and in particular the fabric
metadata extractor turns a declared environment field that is exactly the
string client into the client_only guess. -/
theorem claim_c1_client_meta_authoritative :
    (∀ (loader : String) (mr : List String) (mh : Bool) (mixr : List String)
        (ch : Bool) (cr : List String),
        (decide_side loader "client_only" mr mh mixr ch cr).1 = "client_only") ∧
    (∀ fabric_json : List (String × JVal),
        fabric_json.lookup "environment" = some (JVal.str "client") →
        (extract_fabric_side_from_metadata fabric_json).1 = "client_only") := by
  constructor
  · intro loader mr mh mixr ch cr
    simp [decide_side]
  · intro fabric_json h
    have henv : envStrIs (JVal.str "client") "client" = true := by decide
    simp [extract_fabric_side_from_metadata, h, henv]

/-- Witness for claim C1 at concrete inputs. -/
theorem claim_c1_witness :
    (decide_side "fabric" "client_only" ["r"] true ["m"] true ["c"]).1 = "client_only" ∧
    (extract_fabric_side_from_metadata
      [("environment", JVal.str "client"), ("entrypoints", JVal.obj [("server", JVal.null)])]).1
      = "client_only" :=
  ⟨claim_c1_client_meta_authoritative.1 "fabric" ["r"] true ["m"] true ["c"],
   claim_c1_client_meta_authoritative.2 _ rfl⟩

/-- Claim C2: with a server_only meta-side guess, any scanner hit makes the
final side risky and puts the mis-packaging warning string into the
reasons; with no hit the final side is server_only. -/
theorem claim_c2_server_meta_conflict :
    ∀ (loader : String) (mr : List String) (mh : Bool) (mixr : List String)
      (ch : Bool) (cr : List String),
      ((mh || ch) = true →
        (decide_side loader "server_only" mr mh mixr ch cr).1 = "risky" ∧
        warnStr ∈ (decide_side loader "server_only" mr mh mixr ch cr).2) ∧
      ((mh || ch) = false →
        (decide_side loader "server_only" mr mh mixr ch cr).1 = "server_only") := by
  intro loader mr mh mixr ch cr
  constructor
  · intro h
    cases mh <;> cases ch <;> simp_all [decide_side]
  · intro h
    cases mh <;> cases ch <;> simp_all [decide_side]

/-- Witness for claim C2 at concrete inputs. -/
theorem claim_c2_witness :
    ((decide_side "f" "server_only" [] true [] false []).1 = "risky" ∧
      warnStr ∈ (decide_side "f" "server_only" [] true [] false []).2) ∧
    (decide_side "f" "server_only" [] false [] false []).1 = "server_only" :=
  ⟨(claim_c2_server_meta_conflict "f" [] true [] false []).1 rfl,
   (claim_c2_server_meta_conflict "f" [] false [] false []).2 rfl⟩

/-- Claim C3: with a both or unknown meta-side guess, a class-marker hit
gives risky; otherwise a mixin hit gives both; otherwise the meta guess
both gives both and unknown gives unknown, so class-marker evidence takes
precedence over mixin evidence here. -/
theorem claim_c3_both_unknown_precedence :
    ∀ (loader ms : String) (mr : List String) (mh : Bool) (mixr : List String)
      (ch : Bool) (cr : List String),
      ms = "both" ∨ ms = "unknown" →
      (decide_side loader ms mr mh mixr ch cr).1 =
        (if ch then "risky" else if mh then "both"
          else if ms = "both" then "both" else "unknown") := by
  intro loader ms mr mh mixr ch cr hms
  rcases hms with h | h <;> subst h <;> cases ch <;> cases mh <;> simp [decide_side]

/-- Witness for claim C3 at concrete inputs. -/
theorem claim_c3_witness :
    (decide_side "f" "both" [] true [] true []).1
      = (if true then "risky" else if true then "both"
          else if "both" = "both" then "both" else "unknown") ∧
    (decide_side "f" "unknown" [] true [] false []).1
      = (if false then "risky" else if true then "both"
          else if "unknown" = "both" then "both" else "unknown") :=
  ⟨claim_c3_both_unknown_precedence "f" "both" [] true [] true [] (Or.inl rfl),
   claim_c3_both_unknown_precedence "f" "unknown" [] true [] false [] (Or.inr rfl)⟩

/-- Claim C7: for every input the reason list is the tagged meta reasons,
then either nothing or the tagged mixin reasons, then either nothing or the
tagged class-scan reasons, then either nothing or the synthesized warning
string, in this fixed order. -/
theorem claim_c7_reason_order :
    ∀ (loader ms : String) (mr : List String) (mh : Bool) (mixr : List String)
      (ch : Bool) (cr : List String),
      ∃ mpart cpart wpart,
        (decide_side loader ms mr mh mixr ch cr).2
          = mr.map (tagMeta loader) ++ mpart ++ cpart ++ wpart ∧
        (mpart = [] ∨ mpart = mixr.map tagMixin) ∧
        (cpart = [] ∨ cpart = cr.map tagClassScan) ∧
        (wpart = [] ∨ wpart = [warnStr]) := by
  intro loader ms mr mh mixr ch cr
  unfold decide_side
  split_ifs
  · exact ⟨[], [], [], by simp, Or.inl rfl, Or.inl rfl, Or.inl rfl⟩
  · exact ⟨mixr.map tagMixin, cr.map tagClassScan, [warnStr], by simp,
      Or.inr rfl, Or.inr rfl, Or.inr rfl⟩
  · exact ⟨[], [], [], by simp, Or.inl rfl, Or.inl rfl, Or.inl rfl⟩
  · exact ⟨[], cr.map tagClassScan, [], by simp, Or.inl rfl, Or.inr rfl, Or.inl rfl⟩
  · exact ⟨mixr.map tagMixin, [], [], by simp, Or.inr rfl, Or.inl rfl, Or.inl rfl⟩
  · exact ⟨[], [], [], by simp, Or.inl rfl, Or.inl rfl, Or.inl rfl⟩
  · exact ⟨[], [], [], by simp, Or.inl rfl, Or.inl rfl, Or.inl rfl⟩

/-- Claim C6: the registry never overwrites an existing entry.  The guarded
insertion step leaves the registry fully unchanged when the composite key
is already present (first-seen wins, the new record is dropped), and every
extractor path as well as the snapshot-population loop preserves every
binding already present. -/
theorem claim_c6_first_seen_wins :
    (∀ (mods : Registry) (key : String) (r : ModInfo),
        (List.lookup key mods).isSome = true → insertNew mods key r = mods) ∧
    (∀ (mods : Registry) (path : String) (z : List Entry) (k : String),
        (List.lookup k mods).isSome = true →
        List.lookup k (FabricModHandler mods path z) = List.lookup k mods ∧
        List.lookup k (RiftModHandler mods path z) = List.lookup k mods ∧
        List.lookup k (QuiltModHandler mods path z) = List.lookup k mods ∧
        List.lookup k (LForgeModHandler mods path z) = List.lookup k mods ∧
        List.lookup k (MForgeModHandler mods path z) = List.lookup k mods ∧
        List.lookup k (NeoForgeModHandler mods path z) = List.lookup k mods ∧
        List.lookup k (UniversalHandler mods path z) = List.lookup k mods) ∧
    (∀ (mods : Registry) (l : List JVal) (k : String),
        (List.lookup k mods).isSome = true →
        List.lookup k (loadMods mods l).1 = List.lookup k mods) := by
  refine ⟨insertNew_present, ?_, fun mods l k h => loadMods_preserves l mods k h⟩
  intro mods path z k h
  exact ⟨lookup_applyCand mods _ k h, lookup_applyCand mods _ k h,
    lookup_applyCand mods _ k h, lookup_applyCand mods _ k h,
    lookup_applyCand mods _ k h, lookup_applyCand mods _ k h,
    lookup_applyCand mods _ k h⟩

/-- Witness for claim C6 at concrete inputs: the duplicate record is
dropped and the pre-existing binding survives every path. -/
theorem claim_c6_witness :
    insertNew wMods "k" wRec2 = wMods ∧
    List.lookup "k" (FabricModHandler wMods "p.jar" []) = List.lookup "k" wMods ∧
    List.lookup "k" (UniversalHandler wMods "p.zip" []) = List.lookup "k" wMods ∧
    List.lookup "k" (loadMods wMods [JVal.obj []]).1 = List.lookup "k" wMods :=
  ⟨claim_c6_first_seen_wins.1 wMods "k" wRec2 rfl,
   (claim_c6_first_seen_wins.2.1 wMods "p.jar" [] "k" rfl).1,
   (claim_c6_first_seen_wins.2.1 wMods "p.zip" [] "k" rfl).2.2.2.2.2.2,
   claim_c6_first_seen_wins.2.2 wMods [JVal.obj []] "k" rfl⟩

/-- Claim C10: an archive with none of the dispatcher trigger entries is
routed to the catch-all handler, which runs the scanners and computes a
verdict but leaves the registry completely unchanged. -/
theorem claim_c10_catchall_frame :
    ∀ (mods : Registry) (path : String) (z : List Entry),
      hasEntry z "fabric.mod.json" = false →
      hasEntry z "riftmod.json" = false →
      hasEntry z "quilt.mod.json" = false →
      hasEntry z "mcmod.info" = false →
      hasEntry z "META-INF/mods.toml" = false →
      hasEntry z "META-INF/neoforge.mods.toml" = false →
      JarFileHandler mods path z = mods := by
  intro mods path z h1 h2 h3 h4 h5 h6
  simp [JarFileHandler, SpecialHandler, h1, h2, h3, h4, h5, h6]

/-- Witness for claim C10 at a concrete archive and registry. -/
theorem claim_c10_witness : JarFileHandler wMods "x.jar" w10z = wMods :=
  claim_c10_catchall_frame wMods "x.jar" w10z rfl rfl rfl rfl rfl rfl

/-- The class scanner loop only looks at the bounded view: the remaining
class entries up to the remaining cap, each truncated to the byte cap. -/
theorem classLoop_view (maxC maxB : Nat) : ∀ (z : List Entry) (scanned : Nat)
    (hs : List String), scanned ≤ maxC →
    classLoop maxC maxB z scanned hs
      = procView (((z.filter (fun e => strEndsWith e.name ".class")).take (maxC - scanned)).map
          (fun e => (e.name, e.bytes.take maxB))) hs := by
  intro z
  induction z with
  | nil => intro scanned hs _; simp [classLoop, procView]
  | cons e rest ih =>
    intro scanned hs h
    cases hc : strEndsWith e.name ".class" with
    | true =>
      by_cases hcap : maxC < scanned + 1
      · have h0 : maxC - scanned = 0 := by omega
        simp [classLoop, hc, hcap, h0, procView]
      · have h1 : scanned + 1 ≤ maxC := by omega
        have hstep : maxC - scanned = (maxC - (scanned + 1)) + 1 := by omega
        rw [hstep]
        cases hfind : markers.find? (fun m => hasSeq m (e.bytes.take maxB)) with
        | some m =>
          simp only [classLoop, hc, if_true, hcap, if_false, hfind, List.filter_cons,
            List.take_succ_cons, List.map_cons, procView]
          exact ih (scanned + 1) (hs ++ [classReason m]) h1
        | none =>
          simp only [classLoop, hc, if_true, hcap, if_false, hfind, List.filter_cons,
            List.take_succ_cons, List.map_cons, procView]
          exact ih (scanned + 1) hs h1
    | false =>
      simp only [classLoop, hc, List.filter_cons]
      simp only [Bool.false_eq_true, if_false]
      exact ih scanned hs h

/-- The class scanner factors through the bounded view of the archive. -/
theorem scan_class_view (z : List Entry) (maxC maxB : Nat) :
    scan_class_bytes_for_client_markers z maxC maxB
      = (let hs := procView (classView maxC maxB z) [];
         (decide (0 < hs.length), hs)) := by
  unfold scan_class_bytes_for_client_markers classView
  rw [classLoop_view maxC maxB z 0 [] (Nat.zero_le maxC)]
  simp

/-- Claim C8: the binary marker scanner depends only on the first 300
class-file entries and on the first 200000 bytes of each: two archives
agreeing on that bounded view get the same hit flag and the same hit
reasons. -/
theorem claim_c8_bounded_dependence :
    ∀ z1 z2 : List Entry,
      classView 300 200000 z1 = classView 300 200000 z2 →
      scanClassDefaults z1 = scanClassDefaults z2 := by
  intro z1 z2 h
  unfold scanClassDefaults
  rw [scan_class_view, scan_class_view, h]

set_option maxRecDepth 8000

/-- Witness for claim C8: a marker placed in the 301st class entry, beyond
the entry cap, leaves the scanner result identical to the archive without
it (in particular, no hit). -/
theorem claim_c8_witness :
    classView 300 200000 w8a = classView 300 200000 w8b ∧
    scanClassDefaults w8a = scanClassDefaults w8b := by
  have hview : classView 300 200000 w8a = classView 300 200000 w8b := by rfl
  exact ⟨hview, claim_c8_bounded_dependence w8a w8b hview⟩

/-- Claim C4 evidence: the walk has no handler for an archive-open failure;
a single invalid .jar makes the whole batch return the propagated
BadZipFile error, and the remaining candidate paths (here a valid archive)
are never scanned. -/
theorem claim_c4_open_failure_aborts_batch :
    PathHandler [] [("bad.jar", FileContent.invalid),
      ("good.zip", FileContent.archive w9uniZ)]
      = Except.error "zipfile.BadZipFile: File is not a zip file" := rfl

/-- Claim C5 counterexample: with a non-empty registry in place, a load
attempt whose selected file is unreadable reports no data loaded, yet the
registry has been cleared rather than left in its prior state. -/
theorem claim_c5_counterexample :
    LoadFromJson w5prior true ["ModelInfo_20250101_000000.json"] 0 none = ([], none) ∧
    ([] : Registry) ≠ w5prior := by
  refine ⟨rfl, ?_⟩
  simp [w5prior]

/-- Claim C5 as amended: failures detected before the selected file is read
(missing record directory, no snapshot files, index out of range) leave the
registry unchanged and report no data loaded; but an unreadable file or an
unrecognized document shape is only detected after the registry has been
cleared, so those failures report no data loaded with the registry left
empty, not in its prior state. -/
theorem claim_c5_amended_load_failure :
    ∀ (prior : Registry) (dirExists : Bool) (dirFiles : List String) (index : Nat)
      (doc : Option JVal),
      ((dirExists = false ∨ recFiles dirFiles = []
          ∨ (sortRev (recFiles dirFiles)).length ≤ index) →
        LoadFromJson prior dirExists dirFiles index doc = (prior, none)) ∧
      (dirExists = true → recFiles dirFiles ≠ [] →
        index < (sortRev (recFiles dirFiles)).length →
        loadFailsAfterClear doc = true →
        LoadFromJson prior dirExists dirFiles index doc = ([], none)) := by
  intro prior dirExists dirFiles index doc
  constructor
  · intro hfail
    rcases hfail with h | h | h
    · simp [LoadFromJson, h]
    · cases dirExists with
      | false => simp [LoadFromJson]
      | true => simp [LoadFromJson, h]
    · cases dirExists with
      | false => simp [LoadFromJson]
      | true =>
        by_cases hf : recFiles dirFiles = []
        · simp [LoadFromJson, hf]
        · have hne : (recFiles dirFiles).isEmpty = false := by
            cases hrf : recFiles dirFiles with
            | nil => exact absurd hrf hf
            | cons a l => simp
          simp [LoadFromJson, hne, h]
  · intro h1 h2 h3 h4
    subst h1
    have hne : (recFiles dirFiles).isEmpty = false := by
      cases hrf : recFiles dirFiles with
      | nil => exact absurd hrf h2
      | cons a l => simp
    have hidx : ¬ (sortRev (recFiles dirFiles)).length ≤ index := Nat.not_le.mpr h3
    cases doc with
    | none => simp [LoadFromJson, hne, hidx]
    | some d =>
      cases d with
      | null => simp [LoadFromJson, hne, hidx]
      | bool b => simp [LoadFromJson, hne, hidx]
      | num n => simp [LoadFromJson, hne, hidx]
      | str s => simp [LoadFromJson, hne, hidx]
      | arr l => simp [loadFailsAfterClear] at h4
      | obj o =>
        have hguard : ((o.lookup "metadata").isSome && (o.lookup "mods").isSome) = false := by
          simp only [loadFailsAfterClear] at h4
          cases hx : ((o.lookup "metadata").isSome && (o.lookup "mods").isSome) with
          | false => rfl
          | true => rw [hx] at h4; simp at h4
        simp [LoadFromJson, hne, hidx, hguard]

/-- Witness for the amended claim C5 at concrete inputs: a pre-read failure
keeps the prior registry; an unrecognized document shape leaves it
cleared. -/
theorem claim_c5_witness :
    LoadFromJson w5prior false [] 0 none = (w5prior, none) ∧
    LoadFromJson w5prior true ["ModelInfo_20250101_000000.json"] 0 (some JVal.null)
      = ([], none) :=
  ⟨(claim_c5_amended_load_failure w5prior false [] 0 none).1 (Or.inl rfl),
   (claim_c5_amended_load_failure w5prior true ["ModelInfo_20250101_000000.json"] 0
      (some JVal.null)).2 rfl (by decide) (by decide) rfl⟩

/-- Claim C9 counterexample: a .zip archive whose class bytes contain a
client marker.  The universal handler inserts its record with side unknown,
while the decision-engine merge of an indeterminate meta guess with the two
scanner results on the same archive yields risky, so the final side of the
record is not the merge and the scanners were not consulted. -/
theorem claim_c9_counterexample :
    ((UniversalHandler [] "m.zip" w9z).map (fun kv => kv.2.side)) = [some "unknown"] ∧
    engineMergedSide "universal" "legacy/zip: mcmod.info has no reliable sided metadata" w9z
      = "risky" := by
  constructor
  · rfl
  · decide

/-- Claim C9 as amended: for every record produced by a jar-dispatched
extractor both heuristic scanners are run on the archive and the final side
of the record is the decision-engine merge of the meta-side guess with the
two scanner results (an indeterminate guess for rift, legacy forge, forge
and neoforge, the extracted guess for fabric and quilt); but the universal
(.zip/.litemod) handler inserts its records with the fixed side unknown
without consulting either scanner. -/
theorem claim_c9_amended :
    (∀ (path : String) (z : List Entry) (e : Entry) (data : List (String × JVal)),
      findEntry z "fabric.mod.json" = some e → e.json = some (JVal.obj data) →
      (fabricCand path z).isSome = true →
      (fabricCand path z).map (fun kr => kr.2.side)
        = some (some (decide_side "fabric" (extract_fabric_side_from_metadata data).1
            (extract_fabric_side_from_metadata data).2.1
            (scan_mixins_for_client_sections z).1 (scan_mixins_for_client_sections z).2
            (scanClassDefaults z).1 (scanClassDefaults z).2).1)) ∧
    (∀ (path : String) (z : List Entry) (e : Entry) (data : List (String × JVal)),
      findEntry z "quilt.mod.json" = some e → e.json = some (JVal.obj data) →
      (quiltCand path z).isSome = true →
      (quiltCand path z).map (fun kr => kr.2.side)
        = some (some (decide_side "quilt" (quiltMetaSide data).1 (quiltMetaSide data).2
            (scan_mixins_for_client_sections z).1 (scan_mixins_for_client_sections z).2
            (scanClassDefaults z).1 (scanClassDefaults z).2).1)) ∧
    (∀ (path : String) (z : List Entry), (riftCand path z).isSome = true →
      (riftCand path z).map (fun kr => kr.2.side)
        = some (some (engineMergedSide "rift"
            "riftmod.json: no standard sided metadata" z))) ∧
    (∀ (path : String) (z : List Entry), (lforgeCand path z).isSome = true →
      (lforgeCand path z).map (fun kr => kr.2.side)
        = some (some (engineMergedSide "forge_legacy"
            "forge legacy: mcmod.info has no reliable sided metadata" z))) ∧
    (∀ (path : String) (z : List Entry), (mforgeCand path z).isSome = true →
      (mforgeCand path z).map (fun kr => kr.2.side)
        = some (some (engineMergedSide "forge"
            "forge mods.toml: no reliable sided metadata; using class scan" z))) ∧
    (∀ (path : String) (z : List Entry), (neoforgeCand path z).isSome = true →
      (neoforgeCand path z).map (fun kr => kr.2.side)
        = some (some (engineMergedSide "neoforge"
            "neoforge mods.toml: no reliable sided metadata; using class scan" z))) ∧
    (∀ (path : String) (z : List Entry), (universalCand path z).isSome = true →
      (universalCand path z).map (fun kr => kr.2.side) = some (some "unknown")) := by
  refine ⟨?_, ?_, ?_, ?_, ?_, ?_, ?_⟩
  · intro path z e data hfe hjson h
    cases hc : fabricCand path z with
    | none => rw [hc] at h; exact absurd h (by simp)
    | some kr =>
      unfold fabricCand at hc
      simp only [hfe, hjson] at hc
      by_cases hid : getStrD data "id" "" = ""
      · rw [if_pos hid] at hc
        exact Option.noConfusion hc
      · rw [if_neg hid] at hc
        have hkr := Option.some.inj hc
        subst hkr
        rfl
  · intro path z e data hfe hjson h
    cases hc : quiltCand path z with
    | none => rw [hc] at h; exact absurd h (by simp)
    | some kr =>
      unfold quiltCand at hc
      simp only [hfe, hjson] at hc
      by_cases hid : getStrD
          (match data.lookup "quilt_loader" with
            | some (JVal.obj l) => l
            | _ => []) "id" "" = ""
      · rw [if_pos hid] at hc
        exact Option.noConfusion hc
      · rw [if_neg hid] at hc
        have hkr := Option.some.inj hc
        subst hkr
        rfl
  · intro path z h
    cases hc : riftCand path z with
    | none => rw [hc] at h; exact absurd h (by simp)
    | some kr =>
      unfold riftCand at hc
      repeat' split at hc
      all_goals simp_all [engineMergedSide]
      all_goals (obtain ⟨hne2, hkr2⟩ := hc; subst hkr2; rfl)
  · intro path z h
    cases hc : lforgeCand path z with
    | none => rw [hc] at h; exact absurd h (by simp)
    | some kr =>
      unfold lforgeCand at hc
      repeat' split at hc
      all_goals simp_all [engineMergedSide]
      all_goals (obtain ⟨hne2, hkr2⟩ := hc; subst hkr2; rfl)
  · intro path z h
    cases hc : mforgeCand path z with
    | none => rw [hc] at h; exact absurd h (by simp)
    | some kr =>
      unfold mforgeCand at hc
      repeat' split at hc
      all_goals simp_all [engineMergedSide]
      all_goals (obtain ⟨hne2, hkr2⟩ := hc; subst hkr2; rfl)
  · intro path z h
    cases hc : neoforgeCand path z with
    | none => rw [hc] at h; exact absurd h (by simp)
    | some kr =>
      unfold neoforgeCand at hc
      repeat' split at hc
      all_goals simp_all [engineMergedSide]
      all_goals (obtain ⟨hne2, hkr2⟩ := hc; subst hkr2; rfl)
  · intro path z h
    cases hc : universalCand path z with
    | none => rw [hc] at h; exact absurd h (by simp)
    | some kr =>
      unfold universalCand at hc
      repeat' split at hc
      all_goals simp_all
      all_goals (obtain ⟨hne2, hkr2⟩ := hc; subst hkr2; rfl)

/-- Witness for the amended claim C9, exercising every extractor at a
concrete archive. -/
theorem claim_c9_witness :
    (fabricCand "f.jar" wFabZ).map (fun kr => kr.2.side)
      = some (some (decide_side "fabric"
          (extract_fabric_side_from_metadata
            [("id", JVal.str "fm"), ("environment", JVal.str "client")]).1
          (extract_fabric_side_from_metadata
            [("id", JVal.str "fm"), ("environment", JVal.str "client")]).2.1
          (scan_mixins_for_client_sections wFabZ).1 (scan_mixins_for_client_sections wFabZ).2
          (scanClassDefaults wFabZ).1 (scanClassDefaults wFabZ).2).1) ∧
    (quiltCand "q.jar" wQuiltZ).map (fun kr => kr.2.side)
      = some (some (decide_side "quilt"
          (quiltMetaSide [("quilt_loader", JVal.obj [("id", JVal.str "qm")])]).1
          (quiltMetaSide [("quilt_loader", JVal.obj [("id", JVal.str "qm")])]).2
          (scan_mixins_for_client_sections wQuiltZ).1 (scan_mixins_for_client_sections wQuiltZ).2
          (scanClassDefaults wQuiltZ).1 (scanClassDefaults wQuiltZ).2).1) ∧
    (riftCand "p.jar" w9riftZ).map (fun kr => kr.2.side)
      = some (some (engineMergedSide "rift"
          "riftmod.json: no standard sided metadata" w9riftZ)) ∧
    (lforgeCand "l.jar" wLfZ).map (fun kr => kr.2.side)
      = some (some (engineMergedSide "forge_legacy"
          "forge legacy: mcmod.info has no reliable sided metadata" wLfZ)) ∧
    (mforgeCand "m.jar" wMfZ).map (fun kr => kr.2.side)
      = some (some (engineMergedSide "forge"
          "forge mods.toml: no reliable sided metadata; using class scan" wMfZ)) ∧
    (neoforgeCand "n.jar" wNfZ).map (fun kr => kr.2.side)
      = some (some (engineMergedSide "neoforge"
          "neoforge mods.toml: no reliable sided metadata; using class scan" wNfZ)) ∧
    (universalCand "u.zip" w9uniZ).map (fun kr => kr.2.side) = some (some "unknown") :=
  ⟨claim_c9_amended.1 "f.jar" wFabZ wFabE _ rfl rfl rfl,
   claim_c9_amended.2.1 "q.jar" wQuiltZ wQuiltE _ rfl rfl rfl,
   claim_c9_amended.2.2.1 "p.jar" w9riftZ rfl,
   claim_c9_amended.2.2.2.1 "l.jar" wLfZ rfl,
   claim_c9_amended.2.2.2.2.1 "m.jar" wMfZ rfl,
   claim_c9_amended.2.2.2.2.2.1 "n.jar" wNfZ rfl,
   claim_c9_amended.2.2.2.2.2.2 "u.zip" w9uniZ rfl⟩
